import Mathlib

/-!
Verification of the channel monitoring engine of `src/main.py`
(shazamIO_TBSFM): the per-channel polling loop `monitor_stream`, the
dedup handler `on_music_detected`, the Firebase REST publication helpers,
and the shared recognition lock created in `main`.

The embedding is value-level and per-cycle: one iteration of the
`while True:` body of `monitor_stream` becomes the function `cycle`,
parameterized by the outcomes of the external collaborators (audio
capture, the Shazam recognition call, the Firebase HTTP requests).
The two global dictionaries `LAST_DETECTED_KEY` / `LAST_SENT_STATUS`,
projected onto one channel id, become the record `ChannelState`.
Externally observable calls made during a cycle are recorded as a list
of `Event`s in program order.
-/

namespace ShazamTBSFM

/-- Value of `LAST_SENT_STATUS[channel_id]`: `None` before the first
published outcome (modelled as `unknown`), `'music'` or `'empty'`
afterwards (src/main.py lines 200, 221, 232). -/
inductive Status where
  | unknown : Status
  | music : Status
  | empty : Status
deriving DecidableEq, Repr

/-- The per-channel slice of the two global state dictionaries
`LAST_DETECTED_KEY` and `LAST_SENT_STATUS` (src/main.py lines 26-27). -/
structure ChannelState where
  lastDetectedKey : Option String
  lastSentStatus : Status
deriving DecidableEq, Repr

/-- Channel state right after initialization (src/main.py lines 199-200):
`LAST_DETECTED_KEY[channel_id] = None`, `LAST_SENT_STATUS[channel_id] = None`. -/
def initState : ChannelState := ⟨none, Status.unknown⟩

/-- The fields of the `track` dictionary returned by recognition that the
monitor reads: `title`, `subtitle`, `key` (src/main.py lines 165-170).
Any field may be absent (`dict.get` returns `None`). -/
structure Track where
  title : Option String
  subtitle : Option String
  key : Option String
deriving DecidableEq, Repr

/-- Python truthiness of `track_info.get('key')`: `None` and the empty
string are falsy, every other string is truthy (used at src/main.py
lines 173 and 180, `if current_key ...`). -/
def truthyKey : Option String → Bool
  | none => false
  | some s => !(s == "")

/-- Outcome of one Firebase REST request sequence as seen by the caller:
every request either succeeded (HTTP 200), returned a non-200 status, or
raised a network error inside the `aiohttp` block. -/
inductive PublishResult where
  | ok2xx : PublishResult
  | non2xx : PublishResult
  | netError : PublishResult
deriving DecidableEq, Repr

/-- Outcome of `await shazam.recognize_song(temp_file)` as seen by
`monitor_stream`: a result dictionary whose `'track'` entry is present
(`matched`) or absent (`noMatch`), or an exception carrying a message
string (src/main.py lines 214-243). -/
inductive RecogResult where
  | matched : Track → RecogResult
  | noMatch : RecogResult
  | raised : String → RecogResult
deriving DecidableEq, Repr

/-- Externally observable actions of one cycle, in program order. -/
inductive Event where
  /-- `async with lock` entered (src/main.py line 213). -/
  | lockAcquire : Event
  /-- `shazam.recognize_song` invoked (src/main.py line 214). -/
  | recognizeCall : Event
  /-- the `async with lock` block exited, on return or exception. -/
  | lockRelease : Event
  /-- `save_to_firebase_rest` invoked (src/main.py line 178). -/
  | publishCall : Event
  /-- `clear_now_playing_rest` invoked (src/main.py line 229). -/
  | clearCall : Event
deriving DecidableEq, Repr

/-- Whether the character list `pat` occurs at the head of `s`. -/
def leadsWith : List Char → List Char → Bool
  | [], _ => true
  | _ :: _, [] => false
  | p :: ps, c :: cs => p == c && leadsWith ps cs

/-- Whether the character list `pat` occurs contiguously anywhere in `s`
(the meaning of Python's `pat in s` on strings). -/
def occursIn (pat : List Char) : List Char → Bool
  | [] => leadsWith pat []
  | c :: cs => leadsWith pat (c :: cs) || occursIn pat cs

/-- The test `"URL is invalid" in error_msg` (src/main.py line 237) that
classifies a recognition exception as the rate-limit signature. -/
def msgSignalsRateLimit (msg : String) : Bool :=
  occursIn "URL is invalid".toList msg.toList

/-- Embedding of `save_to_firebase_rest` (src/main.py lines 65-101),
restricted to its caller-visible behavior: when Firebase is not ready it
returns immediately; otherwise it performs the PUT/POST requests and
returns normally for every HTTP outcome — a non-200 status is only
logged (lines 90-96) and a network error is swallowed by the
`try/except` around the session block (lines 100-101). The returned
value is the failure log line it prints, `none` on success. It never
touches `LAST_DETECTED_KEY` or `LAST_SENT_STATUS`. (The uncaught
`get_access_token` credential-refresh path is outside this model; the
claims about publication failure concern non-2xx and network errors.) -/
def save_to_firebase_rest (ready : Bool) (pub : PublishResult) : Option String :=
  if ready then
    match pub with
    | PublishResult.ok2xx => none
    | PublishResult.non2xx => some "Now Playing Update Failed"
    | PublishResult.netError => some "REST API Request Error"
  else none

/-- Embedding of `clear_now_playing_rest` (src/main.py lines 103-125):
same caller-visible contract as `save_to_firebase_rest` — it returns
normally for every HTTP outcome, only logging failures, and never
touches the state dictionaries. -/
def clear_now_playing_rest (ready : Bool) (pub : PublishResult) : Option String :=
  if ready then
    match pub with
    | PublishResult.ok2xx => none
    | PublishResult.non2xx => some "Clear Now Playing Failed"
    | PublishResult.netError => some "Clear Request Error"
  else none

/-- Embedding of `on_music_detected` (src/main.py lines 160-184).
`ready` is the module-level flag `FIREBASE_READY`; `pub` is the HTTP
outcome `save_to_firebase_rest` would observe. Returns the updated
channel state and the calls made. Faithful points: the duplicate test
(line 173) requires `current_key` truthy and equal to the stored key and
then returns without publishing or mutating; otherwise, when Firebase is
ready, `save_to_firebase_rest` is awaited (its outcome is discarded) and
`LAST_DETECTED_KEY` is overwritten only when `current_key` is truthy
(lines 180-182); when Firebase is not ready only a log line is printed. -/
def on_music_detected (ready : Bool) (pub : PublishResult) (track : Track)
    (s : ChannelState) : ChannelState × List Event :=
  let current_key := track.key
  let last_key := s.lastDetectedKey
  if truthyKey current_key = true ∧ current_key = last_key then
    (s, [])
  else if ready then
    let _log := save_to_firebase_rest ready pub
    let s1 := if truthyKey current_key = true
      then { s with lastDetectedKey := current_key } else s
    (s1, [Event.publishCall])
  else
    (s, [])

/-- Result of one iteration of the `while True:` body of
`monitor_stream` (src/main.py lines 205-251). -/
structure CycleResult where
  /-- channel state after the iteration. -/
  state : ChannelState
  /-- observable calls made, in program order. -/
  events : List Event
  /-- seconds of in-cycle cooldown sleep: 60 on the rate-limit path
  (line 240), 30 on capture failure (line 247), otherwise 0. This is in
  addition to the inter-cycle wait of line 255. -/
  extraSleep : Nat
  /-- whether `shazam = Shazam()` was re-executed (line 241), replacing
  the recognition client instance. -/
  rebuildClient : Bool
deriving DecidableEq, Repr

/-- One iteration of the `while True:` body of `monitor_stream`
(src/main.py lines 205-251), parameterized by the outcomes of the
external collaborators. `cap` is the combined test
`success and os.path.exists(temp_file)` (line 210). When capture
succeeds, recognition runs under the lock (lines 213-214, the
`async with` releasing on return or exception), then either
`on_music_detected` runs and `LAST_SENT_STATUS` is set to `'music'`
(lines 220-221), or the no-match branch clears once per silence period
(lines 226-232), or the exception handler classifies the message
(lines 234-243). On capture failure (lines 244-247) nothing else runs
and the channel sleeps 30 seconds. -/
def cycle (ready : Bool) (cap : Bool) (recog : RecogResult) (pub : PublishResult)
    (s : ChannelState) : CycleResult :=
  if cap then
    match recog with
    | RecogResult.matched t =>
      let r := on_music_detected ready pub t s
      { state := { r.1 with lastSentStatus := Status.music }
        events := [Event.lockAcquire, Event.recognizeCall, Event.lockRelease] ++ r.2
        extraSleep := 0
        rebuildClient := false }
    | RecogResult.noMatch =>
      if s.lastSentStatus ≠ Status.empty then
        { state := ⟨none, Status.empty⟩
          events := [Event.lockAcquire, Event.recognizeCall, Event.lockRelease]
            ++ (if ready then [Event.clearCall] else [])
          extraSleep := 0
          rebuildClient := false }
      else
        { state := s
          events := [Event.lockAcquire, Event.recognizeCall, Event.lockRelease]
          extraSleep := 0
          rebuildClient := false }
    | RecogResult.raised msg =>
      if msgSignalsRateLimit msg then
        { state := s
          events := [Event.lockAcquire, Event.recognizeCall, Event.lockRelease]
          extraSleep := 60
          rebuildClient := true }
      else
        { state := s
          events := [Event.lockAcquire, Event.recognizeCall, Event.lockRelease]
          extraSleep := 0
          rebuildClient := false }
  else
    { state := s, events := [], extraSleep := 30, rebuildClient := false }

/-- The collaborator outcomes of one cycle. -/
structure CycleInput where
  cap : Bool
  recog : RecogResult
  pub : PublishResult
deriving DecidableEq, Repr

/-- A sequence of cycles of one channel, threading the channel state and
concatenating the observable calls. -/
def runCycles (ready : Bool) : List CycleInput → ChannelState → ChannelState × List Event
  | [], s => (s, [])
  | i :: rest, s =>
    let c := cycle ready i.cap i.recog i.pub s
    let r := runCycles ready rest c.state
    (r.1, c.events ++ r.2)

/-- The inter-cycle wait of src/main.py line 255:
`wait_time = 30 + random.uniform(0, 5)`, with the jitter draw left as a
parameter. -/
def wait_time (jitter : ℚ) : ℚ := 30 + jitter

/-- Seconds between the end of a cycle's capture-and-handle work and the
next capture: the in-cycle cooldown plus the inter-cycle wait. -/
def delayBeforeNextCapture (c : CycleResult) (jitter : ℚ) : ℚ :=
  (c.extraSleep : ℚ) + wait_time jitter

/-- The recognition client instance used after a cycle, tracked as a
generation counter: `shazam = Shazam()` (line 241) yields a fresh
instance, so the generation increments exactly when the cycle rebuilt
the client. -/
def nextClientGen (c : CycleResult) (g : Nat) : Nat :=
  if c.rebuildClient then g + 1 else g

/-- The invariant relating the two state dictionaries for one channel:
a published `'empty'` status means no stored key, and a stored key means
the last published status was `'music'`. The second conjunct holds
because `LAST_DETECTED_KEY` is only ever set inside `on_music_detected`
(line 182) and `monitor_stream` sets `LAST_SENT_STATUS` to `'music'`
immediately after that call returns (line 221). -/
def StateInv (s : ChannelState) : Prop :=
  (s.lastSentStatus = Status.empty → s.lastDetectedKey = none) ∧
  (s.lastDetectedKey ≠ none → s.lastSentStatus = Status.music)

/-! ### Concurrency model of the shared recognition lock

`main` (src/main.py lines 271-278) creates a single `asyncio.Lock` and
passes it to every `monitor_stream` task; each task wraps exactly the
`shazam.recognize_song` call in `async with lock` (lines 213-214).
We model the system of `n` channel tasks as an interleaving transition
system: each task moves through the phases of its cycle, and the
`async with` block is entered only when no task owns the lock and is
exited by its owner on return or exception. -/

/-- Position of one channel task within its cycle. -/
inductive Phase where
  /-- running `capture_audio_segment` (not gated by the lock). -/
  | capturing : Phase
  /-- blocked at `async with lock` (line 213). -/
  | waitingSlot : Phase
  /-- inside the `async with` block, i.e. executing
  `shazam.recognize_song` (line 214). -/
  | recognizing : Phase
  /-- after the block: classifying the outcome and publishing. -/
  | classifying : Phase
  /-- in the inter-cycle `asyncio.sleep` (line 256). -/
  | sleeping : Phase
deriving DecidableEq, Repr

/-- Global state of the `n` concurrently running channel tasks plus the
single shared `asyncio.Lock`. -/
structure SysState (n : ℕ) where
  phase : Fin n → Phase
  slotOwner : Option (Fin n)

/-- All tasks start at their first capture; the lock starts free. -/
def sysInit (n : ℕ) : SysState n := ⟨fun _ => Phase.capturing, none⟩

/-- Interleaving semantics: one task moves at a time. Entering the
`async with` block requires the lock to be free and takes it; leaving
the block (on return or exception) frees it. All other moves leave the
lock untouched. -/
inductive SysStep {n : ℕ} : SysState n → SysState n → Prop where
  | finishCapture (s : SysState n) (c : Fin n) (h : s.phase c = Phase.capturing) :
      SysStep s ⟨Function.update s.phase c Phase.waitingSlot, s.slotOwner⟩
  | acquireSlot (s : SysState n) (c : Fin n) (h1 : s.phase c = Phase.waitingSlot)
      (h2 : s.slotOwner = none) :
      SysStep s ⟨Function.update s.phase c Phase.recognizing, some c⟩
  | releaseSlot (s : SysState n) (c : Fin n) (h : s.phase c = Phase.recognizing) :
      SysStep s ⟨Function.update s.phase c Phase.classifying, none⟩
  | finishClassify (s : SysState n) (c : Fin n) (h : s.phase c = Phase.classifying) :
      SysStep s ⟨Function.update s.phase c Phase.sleeping, s.slotOwner⟩
  | wake (s : SysState n) (c : Fin n) (h : s.phase c = Phase.sleeping) :
      SysStep s ⟨Function.update s.phase c Phase.capturing, s.slotOwner⟩

/-- A task is executing the recognition call only while it owns the
shared lock. -/
def SlotInv {n : ℕ} (s : SysState n) : Prop :=
  ∀ c : Fin n, s.phase c = Phase.recognizing → s.slotOwner = some c

lemma slotInv_init (n : ℕ) : SlotInv (sysInit n) := by
  intro c h
  simp [sysInit] at h

lemma slotInv_step {n : ℕ} {s s1 : SysState n} (st : SysStep s s1)
    (h : SlotInv s) : SlotInv s1 := by
  cases st with
  | finishCapture c hc =>
    intro c1 h1
    by_cases e : c1 = c
    · subst e; simp [Function.update] at h1
    · have h3 : s.phase c1 = Phase.recognizing :=
        (Function.update_noteq e Phase.waitingSlot s.phase).symm.trans h1
      exact h c1 h3
  | acquireSlot c hw hnone =>
    intro c1 hrec
    by_cases e : c1 = c
    · subst e; rfl
    · have h3 : s.phase c1 = Phase.recognizing :=
        (Function.update_noteq e Phase.recognizing s.phase).symm.trans hrec
      have h4 := h c1 h3
      rw [hnone] at h4
      exact Option.noConfusion h4
  | releaseSlot c hc =>
    intro c1 hrec
    by_cases e : c1 = c
    · subst e; simp [Function.update] at hrec
    · have h3 : s.phase c1 = Phase.recognizing :=
        (Function.update_noteq e Phase.classifying s.phase).symm.trans hrec
      have h4 := h c1 h3
      have h5 := h c hc
      exact absurd (Option.some.inj (h5.symm.trans h4)).symm e
  | finishClassify c hc =>
    intro c1 h1
    by_cases e : c1 = c
    · subst e; simp [Function.update] at h1
    · have h3 : s.phase c1 = Phase.recognizing :=
        (Function.update_noteq e Phase.sleeping s.phase).symm.trans h1
      exact h c1 h3
  | wake c hc =>
    intro c1 h1
    by_cases e : c1 = c
    · subst e; simp [Function.update] at h1
    · have h3 : s.phase c1 = Phase.recognizing :=
        (Function.update_noteq e Phase.capturing s.phase).symm.trans h1
      exact h c1 h3

lemma slotInv_reachable {n : ℕ} {s : SysState n}
    (h : Relation.ReflTransGen SysStep (sysInit n) s) : SlotInv s := by
  induction h with
  | refl => exact slotInv_init n
  | tail _ st ih => exact slotInv_step st ih

/-- C3 (Mutual exclusion on recognition): in every state of the system
reachable from startup, at most one channel task is inside the
`async with lock` block executing `shazam.recognize_song` — so no two
recognition call intervals can overlap. -/
theorem C3_mutual_exclusion (n : ℕ) (s : SysState n)
    (hr : Relation.ReflTransGen SysStep (sysInit n) s)
    (c1 c2 : Fin n)
    (h1 : s.phase c1 = Phase.recognizing)
    (h2 : s.phase c2 = Phase.recognizing) : c1 = c2 := by
  have hinv : SlotInv s := slotInv_reachable hr
  exact Option.some.inj ((hinv c1 h1).symm.trans (hinv c2 h2))

/-- Witness for C3: a concrete reachable two-channel state in which
channel 0 holds the slot and is recognizing. -/
theorem C3_mutual_exclusion_witness : (0 : Fin 2) = 0 := by
  have st1 : SysStep (sysInit 2)
      ⟨Function.update (sysInit 2).phase 0 Phase.waitingSlot, (sysInit 2).slotOwner⟩ :=
    SysStep.finishCapture (sysInit 2) 0 rfl
  have st2 : SysStep
      ⟨Function.update (sysInit 2).phase 0 Phase.waitingSlot, (sysInit 2).slotOwner⟩
      ⟨Function.update (Function.update (sysInit 2).phase 0 Phase.waitingSlot) 0
          Phase.recognizing, some 0⟩ :=
    SysStep.acquireSlot _ 0 (by simp [Function.update]) rfl
  have hr : Relation.ReflTransGen SysStep (sysInit 2)
      ⟨Function.update (Function.update (sysInit 2).phase 0 Phase.waitingSlot) 0
          Phase.recognizing, some 0⟩ :=
    Relation.ReflTransGen.tail (Relation.ReflTransGen.tail Relation.ReflTransGen.refl st1) st2
  exact C3_mutual_exclusion 2 _ hr 0 0 (by simp [Function.update]) (by simp [Function.update])

lemma stateInv_initState : StateInv initState :=
  ⟨fun _ => rfl, fun h => absurd rfl h⟩

lemma stateInv_cycle (ready cap : Bool) (r : RecogResult) (pub : PublishResult)
    (s : ChannelState) (h : StateInv s) : StateInv (cycle ready cap r pub s).state := by
  cases cap with
  | false => simpa [cycle] using h
  | true =>
    cases r with
    | matched t =>
      constructor
      · intro he; simp [cycle] at he
      · intro _; simp [cycle]
    | noMatch =>
      by_cases he : s.lastSentStatus = Status.empty
      · simpa [cycle, he] using h
      · refine ⟨?_, ?_⟩ <;> simp [cycle, he]
    | raised msg =>
      by_cases hm : msgSignalsRateLimit msg
      · simpa [cycle, hm] using h
      · simpa [cycle, hm] using h

/-- C6 (Empty-implies-no-key invariant): the invariant
`lastPublishedStatus = empty → lastDetectedKey is absent` holds after
channel initialization and is preserved by every cycle of the monitor
loop, for every collaborator outcome and whether or not Firebase is
configured. -/
theorem C6_empty_implies_no_key :
    (initState.lastSentStatus = Status.empty → initState.lastDetectedKey = none) ∧
    ∀ (ready cap : Bool) (r : RecogResult) (pub : PublishResult) (s : ChannelState),
      (s.lastSentStatus = Status.empty → s.lastDetectedKey = none) →
      ((cycle ready cap r pub s).state.lastSentStatus = Status.empty →
        (cycle ready cap r pub s).state.lastDetectedKey = none) := by
  refine ⟨fun _ => rfl, ?_⟩
  intro ready cap r pub s hs
  cases cap with
  | false => simpa [cycle] using hs
  | true =>
    cases r with
    | matched t => intro he; simp [cycle] at he
    | noMatch =>
      by_cases he : s.lastSentStatus = Status.empty
      · simpa [cycle, he] using hs
      · simp [cycle, he]
    | raised msg =>
      by_cases hm : msgSignalsRateLimit msg
      · simpa [cycle, hm] using hs
      · simpa [cycle, hm] using hs

/-- Witness for C6: the invariant concretely, at initialization and
after one no-match cycle from the initial state. -/
theorem C6_empty_implies_no_key_witness :
    (initState.lastSentStatus = Status.empty → initState.lastDetectedKey = none) ∧
    ((cycle true true RecogResult.noMatch PublishResult.ok2xx initState).state.lastSentStatus
        = Status.empty →
      (cycle true true RecogResult.noMatch PublishResult.ok2xx initState).state.lastDetectedKey
        = none) :=
  ⟨C6_empty_implies_no_key.1,
   C6_empty_implies_no_key.2 true true RecogResult.noMatch PublishResult.ok2xx initState
     (fun _ => rfl)⟩

/-- Counterexample to C5 as stated: when Firebase is not configured
(`FIREBASE_READY = false`, the default when the service-account file is
missing), a Matched cycle still writes `LAST_SENT_STATUS = 'music'`
(src/main.py line 221) although nothing was published — the state
changes on a cycle that made no `save_to_firebase_rest` and no
`clear_now_playing_rest` call. -/
theorem C5_counterexample :
    (cycle false true (RecogResult.matched ⟨some "Song", none, some "A"⟩)
        PublishResult.ok2xx initState).state ≠ initState ∧
    (cycle false true (RecogResult.matched ⟨some "Song", none, some "A"⟩)
        PublishResult.ok2xx initState).events.count Event.publishCall = 0 ∧
    (cycle false true (RecogResult.matched ⟨some "Song", none, some "A"⟩)
        PublishResult.ok2xx initState).events.count Event.clearCall = 0 := by
  decide

/-- C5 amended (Publish-only state mutation, assuming Firebase is
configured): on every reachable state (captured by `StateInv`), a cycle
changes the per-channel state only if it made a publish or clear call;
in particular a Matched cycle suppressed as a duplicate leaves the state
unchanged and makes neither call. -/
theorem C5_publish_only_mutation_amended :
    ∀ (cap : Bool) (r : RecogResult) (pub : PublishResult) (s : ChannelState),
      StateInv s →
      (((cycle true cap r pub s).state ≠ s →
          Event.publishCall ∈ (cycle true cap r pub s).events ∨
          Event.clearCall ∈ (cycle true cap r pub s).events) ∧
       (∀ t : Track, r = RecogResult.matched t → truthyKey t.key = true →
          t.key = s.lastDetectedKey →
          (cycle true cap r pub s).state = s ∧
          (cycle true cap r pub s).events.count Event.publishCall = 0 ∧
          (cycle true cap r pub s).events.count Event.clearCall = 0)) := by
  intro cap r pub s hinv
  have hdup : ∀ (t : Track) (pub1 : PublishResult), truthyKey t.key = true →
      t.key = s.lastDetectedKey →
      cycle true true (RecogResult.matched t) pub1 s =
        { state := s,
          events := [Event.lockAcquire, Event.recognizeCall, Event.lockRelease],
          extraSleep := 0, rebuildClient := false } := by
    intro t pub1 ht heq
    have hkey : s.lastDetectedKey ≠ none := by
      rw [← heq]
      intro hnone
      rw [hnone] at ht
      simp [truthyKey] at ht
    have hmus : s.lastSentStatus = Status.music := hinv.2 hkey
    have hs1 : ({ s with lastSentStatus := Status.music } : ChannelState) = s := by
      rw [← hmus]
    have ht1 : truthyKey s.lastDetectedKey = true := heq ▸ ht
    simp [cycle, on_music_detected, ht1, heq, hs1]
  constructor
  · cases cap with
    | false =>
      intro hne
      simp [cycle] at hne
    | true =>
      cases r with
      | matched t =>
        by_cases hd : truthyKey t.key = true ∧ t.key = s.lastDetectedKey
        · intro hne
          rw [hdup t pub hd.1 hd.2] at hne
          exact absurd rfl hne
        · intro _
          left
          simp [cycle, on_music_detected, hd]
      | noMatch =>
        by_cases he : s.lastSentStatus = Status.empty
        · intro hne; simp [cycle, he] at hne
        · intro _; right; simp [cycle, he]
      | raised msg =>
        by_cases hm : msgSignalsRateLimit msg
        · intro hne; simp [cycle, hm] at hne
        · intro hne; simp [cycle, hm] at hne
  · intro t hr ht heq
    subst hr
    cases cap with
    | false => exact ⟨by simp [cycle], by simp [cycle], by simp [cycle]⟩
    | true =>
      rw [hdup t pub ht heq]
      exact ⟨rfl, rfl, rfl⟩

/-- Witness for C5 amended: a duplicate detection of key `A` on a
channel whose state already records `A` as published music changes
nothing and makes no call. -/
theorem C5_publish_only_mutation_witness :
    (cycle true true (RecogResult.matched ⟨some "Song", none, some "A"⟩)
        PublishResult.ok2xx ⟨some "A", Status.music⟩).state
      = (⟨some "A", Status.music⟩ : ChannelState) ∧
    (cycle true true (RecogResult.matched ⟨some "Song", none, some "A"⟩)
        PublishResult.ok2xx ⟨some "A", Status.music⟩).events.count Event.publishCall = 0 ∧
    (cycle true true (RecogResult.matched ⟨some "Song", none, some "A"⟩)
        PublishResult.ok2xx ⟨some "A", Status.music⟩).events.count Event.clearCall = 0 :=
  (C5_publish_only_mutation_amended true
      (RecogResult.matched ⟨some "Song", none, some "A"⟩) PublishResult.ok2xx
      ⟨some "A", Status.music⟩
      ⟨fun h => Status.noConfusion h, fun _ => rfl⟩).2
    ⟨some "Song", none, some "A"⟩ rfl rfl rfl

lemma cycle_noMatch_from_empty (pub : PublishResult) :
    cycle true true RecogResult.noMatch pub ⟨none, Status.empty⟩ =
      { state := ⟨none, Status.empty⟩,
        events := [Event.lockAcquire, Event.recognizeCall, Event.lockRelease],
        extraSleep := 0, rebuildClient := false } := by
  simp [cycle]

lemma run_all_noMatch_from_empty :
    ∀ (inputs : List CycleInput),
      (∀ i ∈ inputs, i.cap = true ∧ i.recog = RecogResult.noMatch) →
      (runCycles true inputs ⟨none, Status.empty⟩).1 = ⟨none, Status.empty⟩ ∧
      (runCycles true inputs ⟨none, Status.empty⟩).2.count Event.clearCall = 0 := by
  intro inputs
  induction inputs with
  | nil => exact fun _ => ⟨rfl, rfl⟩
  | cons i rest ih =>
    intro hall
    obtain ⟨hcap, hrec⟩ := hall i (List.mem_cons_self i rest)
    have hrest := ih (fun j hj => hall j (List.mem_cons_of_mem i hj))
    simp only [runCycles]
    rw [hcap, hrec, cycle_noMatch_from_empty]
    refine ⟨hrest.1, ?_⟩
    rw [List.count_append]
    simpa using hrest.2

/-- C2 (Silence collapse): from a state whose last published status is
`music`, a nonempty run of consecutive NoMatch cycles (Firebase
configured) makes exactly one `clear_now_playing_rest` call; the first
cycle leaves the state at `⟨no key, empty⟩`, and every further NoMatch
cycle from that state makes no clear call and leaves it unchanged. -/
theorem C2_silence_collapse :
    ∀ (inputs : List CycleInput) (s : ChannelState),
      s.lastSentStatus = Status.music →
      inputs ≠ [] →
      (∀ i ∈ inputs, i.cap = true ∧ i.recog = RecogResult.noMatch) →
      ((runCycles true inputs s).2.count Event.clearCall = 1 ∧
       (runCycles true inputs s).1 = ⟨none, Status.empty⟩ ∧
       (∀ pub : PublishResult,
         (cycle true true RecogResult.noMatch pub s).state = ⟨none, Status.empty⟩) ∧
       (∀ pub : PublishResult,
         (cycle true true RecogResult.noMatch pub ⟨none, Status.empty⟩).state
           = ⟨none, Status.empty⟩ ∧
         (cycle true true RecogResult.noMatch pub
           ⟨none, Status.empty⟩).events.count Event.clearCall = 0)) := by
  intro inputs s hmusic hne hall
  have hsne : s.lastSentStatus ≠ Status.empty := by
    rw [hmusic]; exact fun h => Status.noConfusion h
  have hfirst : ∀ pub : PublishResult,
      cycle true true RecogResult.noMatch pub s =
        { state := ⟨none, Status.empty⟩,
          events := [Event.lockAcquire, Event.recognizeCall, Event.lockRelease,
            Event.clearCall],
          extraSleep := 0, rebuildClient := false } := by
    intro pub
    simp [cycle, hsne]
  cases inputs with
  | nil => exact absurd rfl hne
  | cons i rest =>
    obtain ⟨hcap, hrec⟩ := hall i (List.mem_cons_self i rest)
    have hrest := run_all_noMatch_from_empty rest
      (fun j hj => hall j (List.mem_cons_of_mem i hj))
    refine ⟨?_, ?_, fun pub => by rw [hfirst pub], fun pub => by
      rw [cycle_noMatch_from_empty pub]; exact ⟨rfl, rfl⟩⟩
    · simp only [runCycles]
      rw [hcap, hrec, hfirst i.pub, List.count_append]
      simpa using hrest.2
    · simp only [runCycles]
      rw [hcap, hrec, hfirst i.pub]
      exact hrest.1

/-- Witness for C2: two consecutive NoMatch cycles after a published
match of key `A` clear exactly once and leave the state empty. -/
theorem C2_silence_collapse_witness :
    ((runCycles true
        [⟨true, RecogResult.noMatch, PublishResult.ok2xx⟩,
         ⟨true, RecogResult.noMatch, PublishResult.ok2xx⟩]
        ⟨some "A", Status.music⟩).2.count Event.clearCall = 1 ∧
     (runCycles true
        [⟨true, RecogResult.noMatch, PublishResult.ok2xx⟩,
         ⟨true, RecogResult.noMatch, PublishResult.ok2xx⟩]
        ⟨some "A", Status.music⟩).1 = ⟨none, Status.empty⟩ ∧
     (∀ pub : PublishResult,
       (cycle true true RecogResult.noMatch pub ⟨some "A", Status.music⟩).state
         = ⟨none, Status.empty⟩) ∧
     (∀ pub : PublishResult,
       (cycle true true RecogResult.noMatch pub ⟨none, Status.empty⟩).state
         = ⟨none, Status.empty⟩ ∧
       (cycle true true RecogResult.noMatch pub
         ⟨none, Status.empty⟩).events.count Event.clearCall = 0)) :=
  C2_silence_collapse
    [⟨true, RecogResult.noMatch, PublishResult.ok2xx⟩,
     ⟨true, RecogResult.noMatch, PublishResult.ok2xx⟩]
    ⟨some "A", Status.music⟩ rfl (by decide)
    (by
      intro i hi
      rcases List.mem_cons.mp hi with h | h
      · subst h; exact ⟨rfl, rfl⟩
      · rcases List.mem_cons.mp h with h2 | h2
        · subst h2; exact ⟨rfl, rfl⟩
        · exact absurd h2 (List.not_mem_nil i))

lemma cycle_matched_duplicate (k : String) (hk : k ≠ "") (t : Track)
    (pub : PublishResult) (ht : t.key = some k) :
    cycle true true (RecogResult.matched t) pub ⟨some k, Status.music⟩ =
      { state := ⟨some k, Status.music⟩,
        events := [Event.lockAcquire, Event.recognizeCall, Event.lockRelease],
        extraSleep := 0, rebuildClient := false } := by
  simp [cycle, on_music_detected, ht, truthyKey, hk]

lemma cycle_matched_new_key (k : String) (hk : k ≠ "") (t : Track)
    (pub : PublishResult) (s : ChannelState) (ht : t.key = some k)
    (hs : s.lastDetectedKey ≠ some k) :
    cycle true true (RecogResult.matched t) pub s =
      { state := ⟨some k, Status.music⟩,
        events := [Event.lockAcquire, Event.recognizeCall, Event.lockRelease,
          Event.publishCall],
        extraSleep := 0, rebuildClient := false } := by
  have hcond : ¬(some k = s.lastDetectedKey) := fun he => hs he.symm
  simp [cycle, on_music_detected, hcond, ht, truthyKey, hk]

lemma run_matched_same_key_suppressed (k : String) (hk : k ≠ "") :
    ∀ (inputs : List CycleInput),
      (∀ i ∈ inputs, i.cap = true ∧
        ∃ t : Track, i.recog = RecogResult.matched t ∧ t.key = some k) →
      (runCycles true inputs ⟨some k, Status.music⟩).1 = ⟨some k, Status.music⟩ ∧
      (runCycles true inputs ⟨some k, Status.music⟩).2.count Event.publishCall = 0 := by
  intro inputs
  induction inputs with
  | nil => exact fun _ => ⟨rfl, rfl⟩
  | cons i rest ih =>
    intro hall
    obtain ⟨hcap, t, hrec, htk⟩ := hall i (List.mem_cons_self i rest)
    have hrest := ih (fun j hj => hall j (List.mem_cons_of_mem i hj))
    simp only [runCycles]
    rw [hcap, hrec, cycle_matched_duplicate k hk t i.pub htk]
    refine ⟨hrest.1, ?_⟩
    rw [List.count_append]
    simpa using hrest.2

/-- Counterexample to C1 as stated: starting from the initial state, the
channel publishes key `A`, then a cycle hits a transient recognition
error (which touches no state), and then a run of N = 1 consecutive
cycles each yields `Matched` with the same present key `A` — Firebase
configured and every publication succeeding — yet zero
`save_to_firebase_rest` calls occur during that run, because
`LAST_DETECTED_KEY` still holds `A` from before the run. -/
theorem C1_counterexample :
    truthyKey (Track.mk (some "T") (some "S") (some "A")).key = true ∧
    (runCycles true
      [⟨true, RecogResult.matched ⟨some "T", some "S", some "A"⟩, PublishResult.ok2xx⟩]
      ((runCycles true
        [⟨true, RecogResult.matched ⟨some "T", some "S", some "A"⟩, PublishResult.ok2xx⟩,
         ⟨true, RecogResult.raised "service down", PublishResult.ok2xx⟩]
        initState).1)).2.count Event.publishCall = 0 := by
  decide

/-- C1 amended (Dedup idempotence): for a run of N consecutive Matched
cycles with the same present key (Firebase configured), exactly one
`save_to_firebase_rest` call occurs provided the channel's
`lastDetectedKey` differs from that key when the run begins — if it
already equals the key, zero calls occur (the counterexample) — and
after all N cycles `lastDetectedKey` equals that key. -/
theorem C1_dedup_idempotence_amended :
    ∀ (k : String) (inputs : List CycleInput) (s : ChannelState),
      k ≠ "" →
      s.lastDetectedKey ≠ some k →
      inputs ≠ [] →
      (∀ i ∈ inputs, i.cap = true ∧
        ∃ t : Track, i.recog = RecogResult.matched t ∧ t.key = some k) →
      (runCycles true inputs s).2.count Event.publishCall = 1 ∧
      (runCycles true inputs s).1.lastDetectedKey = some k := by
  intro k inputs s hk hs hne hall
  cases inputs with
  | nil => exact absurd rfl hne
  | cons i rest =>
    obtain ⟨hcap, t, hrec, htk⟩ := hall i (List.mem_cons_self i rest)
    have hrest := run_matched_same_key_suppressed k hk rest
      (fun j hj => hall j (List.mem_cons_of_mem i hj))
    simp only [runCycles]
    rw [hcap, hrec, cycle_matched_new_key k hk t i.pub s htk hs]
    constructor
    · rw [List.count_append]
      simpa using hrest.2
    · rw [hrest.1]

/-- Witness for C1 amended: two consecutive detections of key `A` from
the initial state (the second with a failing publication) publish
exactly once and leave `lastDetectedKey = A`. -/
theorem C1_dedup_idempotence_witness :
    (runCycles true
      [⟨true, RecogResult.matched ⟨some "T", some "S", some "A"⟩, PublishResult.ok2xx⟩,
       ⟨true, RecogResult.matched ⟨some "U", none, some "A"⟩, PublishResult.netError⟩]
      initState).2.count Event.publishCall = 1 ∧
    (runCycles true
      [⟨true, RecogResult.matched ⟨some "T", some "S", some "A"⟩, PublishResult.ok2xx⟩,
       ⟨true, RecogResult.matched ⟨some "U", none, some "A"⟩, PublishResult.netError⟩]
      initState).1.lastDetectedKey = some "A" :=
  C1_dedup_idempotence_amended "A"
    [⟨true, RecogResult.matched ⟨some "T", some "S", some "A"⟩, PublishResult.ok2xx⟩,
     ⟨true, RecogResult.matched ⟨some "U", none, some "A"⟩, PublishResult.netError⟩]
    initState (by decide) (by decide) (by decide)
    (by
      intro i hi
      rcases List.mem_cons.mp hi with h | h
      · subst h
        exact ⟨rfl, ⟨⟨some "T", some "S", some "A"⟩, rfl, rfl⟩⟩
      · rcases List.mem_cons.mp h with h2 | h2
        · subst h2
          exact ⟨rfl, ⟨⟨some "U", none, some "A"⟩, rfl, rfl⟩⟩
        · exact absurd h2 (List.not_mem_nil i))

/-- C4 (Rate-limit backoff): a cycle whose recognition call raises an
exception whose message contains the invalid-URL signature leaves the
channel state untouched, sleeps an extra 60 seconds, rebuilds the
recognition client (so the next recognition uses an instance different
from the one before the error), and the next capture begins no earlier
than 60 seconds after the error. -/
theorem C4_rate_limit_backoff :
    ∀ (ready : Bool) (msg : String) (pub : PublishResult) (s : ChannelState)
      (jitter : ℚ) (g : ℕ),
      msgSignalsRateLimit msg = true →
      0 ≤ jitter →
      ((cycle ready true (RecogResult.raised msg) pub s).state = s ∧
       (cycle ready true (RecogResult.raised msg) pub s).extraSleep = 60 ∧
       (cycle ready true (RecogResult.raised msg) pub s).rebuildClient = true ∧
       nextClientGen (cycle ready true (RecogResult.raised msg) pub s) g ≠ g ∧
       (60 : ℚ) ≤ delayBeforeNextCapture
         (cycle ready true (RecogResult.raised msg) pub s) jitter) := by
  intro ready msg pub s jitter g hm hj
  have hcyc : cycle ready true (RecogResult.raised msg) pub s =
      { state := s,
        events := [Event.lockAcquire, Event.recognizeCall, Event.lockRelease],
        extraSleep := 60, rebuildClient := true } := by
    simp [cycle, hm]
  rw [hcyc]
  refine ⟨rfl, rfl, rfl, ?_, ?_⟩
  · simp [nextClientGen]
  · simp only [delayBeforeNextCapture, wait_time]
    norm_num
    linarith

/-- Witness for C4: a concrete rate-limited cycle from the initial
state, with jitter 2 and client generation 5. -/
theorem C4_rate_limit_backoff_witness :
    (cycle true true (RecogResult.raised "request URL is invalid")
        PublishResult.ok2xx initState).state = initState ∧
    (cycle true true (RecogResult.raised "request URL is invalid")
        PublishResult.ok2xx initState).extraSleep = 60 ∧
    (cycle true true (RecogResult.raised "request URL is invalid")
        PublishResult.ok2xx initState).rebuildClient = true ∧
    nextClientGen (cycle true true (RecogResult.raised "request URL is invalid")
        PublishResult.ok2xx initState) 5 ≠ 5 ∧
    (60 : ℚ) ≤ delayBeforeNextCapture
      (cycle true true (RecogResult.raised "request URL is invalid")
        PublishResult.ok2xx initState) 2 :=
  C4_rate_limit_backoff true "request URL is invalid" PublishResult.ok2xx initState 2 5
    (by decide) (by norm_num)

/-- C7 (Capture-failure handling): a cycle whose capture fails makes no
call at all (no recognition, no publication), applies the 30-second
cooldown and leaves the state unchanged; and a channel whose capture
always fails produces no call into the publication store over any
number of cycles. -/
theorem C7_capture_failure_isolation :
    ∀ (ready : Bool) (r : RecogResult) (pub : PublishResult) (s : ChannelState),
      (cycle ready false r pub s =
        { state := s, events := [], extraSleep := 30, rebuildClient := false }) ∧
      ∀ (inputs : List CycleInput),
        (∀ i ∈ inputs, i.cap = false) →
        runCycles ready inputs s = (s, []) := by
  intro ready r pub s
  constructor
  · simp [cycle]
  · intro inputs
    induction inputs with
    | nil => exact fun _ => rfl
    | cons i rest ih =>
      intro hall
      have hcap := hall i (List.mem_cons_self i rest)
      have hc : cycle ready i.cap i.recog i.pub s =
          { state := s, events := [], extraSleep := 30, rebuildClient := false } := by
        rw [hcap]; simp [cycle]
      simp only [runCycles]
      rw [hc, ih (fun j hj => hall j (List.mem_cons_of_mem i hj))]
      rfl

/-- Witness for C7: one failed-capture cycle and a two-cycle all-failing
run from the initial state. -/
theorem C7_capture_failure_isolation_witness :
    (cycle true false RecogResult.noMatch PublishResult.ok2xx initState =
      { state := initState, events := [], extraSleep := 30, rebuildClient := false }) ∧
    runCycles true
      [⟨false, RecogResult.noMatch, PublishResult.ok2xx⟩,
       ⟨false, RecogResult.raised "offline", PublishResult.ok2xx⟩]
      initState = (initState, []) :=
  have h := C7_capture_failure_isolation true RecogResult.noMatch PublishResult.ok2xx initState
  ⟨h.1, h.2
    [⟨false, RecogResult.noMatch, PublishResult.ok2xx⟩,
     ⟨false, RecogResult.raised "offline", PublishResult.ok2xx⟩]
    (by
      intro i hi
      rcases List.mem_cons.mp hi with h1 | h1
      · subst h1; rfl
      · rcases List.mem_cons.mp h1 with h2 | h2
        · subst h2; rfl
        · exact absurd h2 (List.not_mem_nil i))⟩

lemma on_music_detected_events (ready : Bool) (pub : PublishResult) (t : Track)
    (s : ChannelState) :
    (on_music_detected ready pub t s).2 = [] ∨
    (on_music_detected ready pub t s).2 = [Event.publishCall] := by
  by_cases h1 : truthyKey t.key = true ∧ t.key = s.lastDetectedKey
  · left
    have ht1 : truthyKey s.lastDetectedKey = true := h1.2 ▸ h1.1
    simp [on_music_detected, h1.2, ht1]
  · cases ready with
    | false => left; simp [on_music_detected, h1]
    | true => right; simp [on_music_detected, h1]

/-- C8 (Slot release on every path): whenever a cycle performs a
recognition call, its observable trace starts with acquire, the
recognition call, then the release — immediately, on the match, the
no-match and both exception paths alike — and everything after the
release is publication work (no further lock activity). -/
theorem C8_slot_release_every_path :
    ∀ (ready cap : Bool) (r : RecogResult) (pub : PublishResult) (s : ChannelState),
      (cap = false → (cycle ready cap r pub s).events = []) ∧
      (cap = true → ∃ rest : List Event,
        (cycle ready cap r pub s).events =
          Event.lockAcquire :: Event.recognizeCall :: Event.lockRelease :: rest ∧
        ∀ e ∈ rest, e = Event.publishCall ∨ e = Event.clearCall) := by
  intro ready cap r pub s
  constructor
  · intro hc; subst hc; simp [cycle]
  · intro hc; subst hc
    cases r with
    | matched t =>
      refine ⟨(on_music_detected ready pub t s).2, by simp [cycle], ?_⟩
      intro e he
      rcases on_music_detected_events ready pub t s with h | h <;> rw [h] at he
      · exact absurd he (List.not_mem_nil e)
      · left
        simpa using he
    | noMatch =>
      by_cases he2 : s.lastSentStatus = Status.empty
      · exact ⟨[], by simp [cycle, he2], fun e he => absurd he (List.not_mem_nil e)⟩
      · cases ready with
        | true =>
          refine ⟨[Event.clearCall], by simp [cycle, he2], ?_⟩
          intro e he
          right
          simpa using he
        | false =>
          exact ⟨[], by simp [cycle, he2], fun e he => absurd he (List.not_mem_nil e)⟩
    | raised msg =>
      by_cases hm : msgSignalsRateLimit msg
      · exact ⟨[], by simp [cycle, hm], fun e he => absurd he (List.not_mem_nil e)⟩
      · exact ⟨[], by simp [cycle, hm], fun e he => absurd he (List.not_mem_nil e)⟩

/-- Witness for C8: on a concrete no-match cycle the trace begins with
acquire, recognition call, release. -/
theorem C8_slot_release_every_path_witness :
    (cycle true true RecogResult.noMatch PublishResult.ok2xx initState).events.take 3 =
      [Event.lockAcquire, Event.recognizeCall, Event.lockRelease] := by
  obtain ⟨rest, hev, -⟩ :=
    (C8_slot_release_every_path true true RecogResult.noMatch
      PublishResult.ok2xx initState).2 rfl
  rw [hev]
  rfl

/-- C9 (Publication failure still updates dedup state): a cycle that
publishes a matched track with a present, non-duplicate key sets
`lastDetectedKey` to that key and `lastSentStatus` to `music` whatever
the HTTP outcome of `save_to_firebase_rest` — the whole cycle result is
independent of that outcome, the in-cycle cooldown stays 0, and the
failed request only produces a log line. -/
theorem C9_publish_failure_updates_state :
    ∀ (pub pubAlt : PublishResult) (t : Track) (k : String) (s : ChannelState),
      t.key = some k → k ≠ "" → s.lastDetectedKey ≠ some k →
      ((cycle true true (RecogResult.matched t) pub s).state.lastDetectedKey = some k ∧
       (cycle true true (RecogResult.matched t) pub s).state.lastSentStatus
         = Status.music ∧
       (cycle true true (RecogResult.matched t) pub s).events.count Event.publishCall
         = 1 ∧
       cycle true true (RecogResult.matched t) pubAlt s =
         cycle true true (RecogResult.matched t) pub s ∧
       (cycle true true (RecogResult.matched t) pub s).extraSleep = 0 ∧
       save_to_firebase_rest true PublishResult.non2xx ≠ none ∧
       save_to_firebase_rest true PublishResult.netError ≠ none) := by
  intro pub pubAlt t k s ht hk hs
  rw [cycle_matched_new_key k hk t pub s ht hs,
    cycle_matched_new_key k hk t pubAlt s ht hs]
  exact ⟨rfl, rfl, rfl, rfl, rfl, by decide, by decide⟩

/-- Witness for C9: a fresh detection of key `A` whose publication hits
a network error still records the key and the music status. -/
theorem C9_publish_failure_updates_state_witness :
    (cycle true true (RecogResult.matched ⟨some "T", none, some "A"⟩)
        PublishResult.netError initState).state.lastDetectedKey = some "A" ∧
    (cycle true true (RecogResult.matched ⟨some "T", none, some "A"⟩)
        PublishResult.netError initState).state.lastSentStatus = Status.music ∧
    (cycle true true (RecogResult.matched ⟨some "T", none, some "A"⟩)
        PublishResult.netError initState).events.count Event.publishCall = 1 ∧
    cycle true true (RecogResult.matched ⟨some "T", none, some "A"⟩)
        PublishResult.ok2xx initState =
      cycle true true (RecogResult.matched ⟨some "T", none, some "A"⟩)
        PublishResult.netError initState ∧
    (cycle true true (RecogResult.matched ⟨some "T", none, some "A"⟩)
        PublishResult.netError initState).extraSleep = 0 ∧
    save_to_firebase_rest true PublishResult.non2xx ≠ none ∧
    save_to_firebase_rest true PublishResult.netError ≠ none :=
  C9_publish_failure_updates_state PublishResult.netError PublishResult.ok2xx
    ⟨some "T", none, some "A"⟩ "A" initState rfl (by decide) (by decide)

/-- Counterexample to C10 as stated: with Firebase not configured, a
cycle whose Matched track has no key publishes nothing (the claim says
a keyless match is always published). -/
theorem C10_counterexample :
    (cycle false true (RecogResult.matched ⟨some "X", none, none⟩)
        PublishResult.ok2xx initState).events.count Event.publishCall = 0 := by
  decide

/-- C10 amended (Keyless match leaves the stored key intact): a cycle
whose Matched track has no key is never suppressed, keeps
`lastDetectedKey` at its previous value whether or not Firebase is
configured, and — with Firebase configured — publishes exactly once and
sets the status to music; consequently, if the next cycle detects a
track whose key equals the retained previous key, it is suppressed
(no publish, no state change) even though a different keyless track was
published in between. -/
theorem C10_keyless_match_amended :
    ∀ (pub : PublishResult) (t : Track) (s : ChannelState),
      t.key = none →
      ((cycle true true (RecogResult.matched t) pub s).events.count Event.publishCall
         = 1 ∧
       (cycle true true (RecogResult.matched t) pub s).state.lastDetectedKey
         = s.lastDetectedKey ∧
       (cycle true true (RecogResult.matched t) pub s).state.lastSentStatus
         = Status.music ∧
       (∀ ready : Bool,
         (cycle ready true (RecogResult.matched t) pub s).state.lastDetectedKey
           = s.lastDetectedKey) ∧
       (∀ (t2 : Track) (k : String), t2.key = some k → k ≠ "" →
         s.lastDetectedKey = some k →
         (cycle true true (RecogResult.matched t2) pub
            (cycle true true (RecogResult.matched t) pub s).state).events.count
            Event.publishCall = 0 ∧
         (cycle true true (RecogResult.matched t2) pub
            (cycle true true (RecogResult.matched t) pub s).state).state
           = (cycle true true (RecogResult.matched t) pub s).state)) := by
  intro pub t s ht
  have hkeyless : ∀ ready : Bool,
      cycle ready true (RecogResult.matched t) pub s =
        { state := { s with lastSentStatus := Status.music }
          events := [Event.lockAcquire, Event.recognizeCall, Event.lockRelease]
            ++ (if ready then [Event.publishCall] else [])
          extraSleep := 0
          rebuildClient := false } := by
    intro ready
    cases ready with
    | true => simp [cycle, on_music_detected, ht, truthyKey]
    | false => simp [cycle, on_music_detected, ht, truthyKey]
  refine ⟨?_, ?_, ?_, ?_, ?_⟩
  · rw [hkeyless true]; rfl
  · rw [hkeyless true]
  · rw [hkeyless true]
  · intro ready; rw [hkeyless ready]
  · intro t2 k ht2 hk hs2
    have hstt : ({ s with lastSentStatus := Status.music } : ChannelState)
        = ⟨some k, Status.music⟩ := by
      show (⟨s.lastDetectedKey, Status.music⟩ : ChannelState) = ⟨some k, Status.music⟩
      rw [hs2]
    rw [hkeyless true]
    show (cycle true true (RecogResult.matched t2) pub
        ({ s with lastSentStatus := Status.music })).events.count Event.publishCall = 0 ∧
      (cycle true true (RecogResult.matched t2) pub
        ({ s with lastSentStatus := Status.music })).state
        = ({ s with lastSentStatus := Status.music } : ChannelState)
    rw [hstt, cycle_matched_duplicate k hk t2 pub ht2]
    exact ⟨rfl, rfl⟩

/-- Witness for C10 amended: after a keyless match on a channel whose
stored key is `A`, a following match with key `A` publishes nothing. -/
theorem C10_keyless_match_witness :
    (cycle true true (RecogResult.matched ⟨some "X", none, none⟩) PublishResult.ok2xx
        ⟨some "A", Status.music⟩).events.count Event.publishCall = 1 ∧
    (cycle true true (RecogResult.matched ⟨some "Y", none, some "A"⟩) PublishResult.ok2xx
        (cycle true true (RecogResult.matched ⟨some "X", none, none⟩) PublishResult.ok2xx
          ⟨some "A", Status.music⟩).state).events.count Event.publishCall = 0 :=
  have h := C10_keyless_match_amended PublishResult.ok2xx ⟨some "X", none, none⟩
    ⟨some "A", Status.music⟩ rfl
  ⟨h.1, (h.2.2.2.2 ⟨some "Y", none, some "A"⟩ "A" rfl (by decide) rfl).1⟩

end ShazamTBSFM
